import Mathlib

/-!
# Todo demo servers: REST (`api-rest/main.go`) and GraphQL (`api-gql/main.go`)

Shallow embedding of the handlers and resolvers of the two services and of the stores
they act on.

* Go `int` is taken to be 64 bits wide; the only arithmetic the program does on
  it is `nextID++`, which wraps around (`wrapInt`).
* A Go `map[int]Todo` is an association list with the three operations the
  program uses (`todos[id]`, `todos[id] = v`, `delete(todos, id)`); the order
  of the entries stands for one of the iteration orders Go may choose.
* An HTTP request is the data the handlers look at: `r.Method`, `r.URL.Path`
  and the outcome of decoding the JSON body into a `Todo`.
* A response is its status code and the value written as body.
-/

/-! ## Machine integers and `strconv.Atoi` -/

/-- Largest value of a Go `int` (64 bits). -/
def maxInt : Int := 9223372036854775807

/-- Smallest value of a Go `int` (64 bits). -/
def minInt : Int := -9223372036854775808

/-- Number of values of a Go `int` (`2^64`). -/
def intCount : Int := 18446744073709551616

/-- Two's complement wrap-around of a mathematical integer into the Go `int` range. -/
def wrapInt (x : Int) : Int :=
  (x + 9223372036854775808) % 18446744073709551616 - 9223372036854775808

/-- Value of a decimal digit, as in the loop of `strconv.Atoi`. -/
def digitVal (c : Char) : Option Nat :=
  if 48 ≤ c.toNat ∧ c.toNat ≤ 57 then some (c.toNat - 48) else none

/-- Accumulate decimal digits (`n = n*10 + int(ch)`); any other character is a syntax error. -/
def parseDigits : List Char → Nat → Option Nat
  | [], acc => some acc
  | c :: cs, acc =>
    match digitVal c with
    | none => none
    | some d => parseDigits cs (acc * 10 + d)

/-- Go's `strconv.Atoi` on the characters of a string: an optional sign, then at
least one decimal digit, and a value that fits an `int`; `none` is an error. -/
def atoi (s : List Char) : Option Int :=
  match s with
  | [] => none
  | c :: rest =>
    let ds := if c = '-' ∨ c = '+' then rest else s
    if ds = [] then none
    else
      match parseDigits ds 0 with
      | none => none
      | some n =>
        let v : Int := if c = '-' then -(n : Int) else (n : Int)
        if minInt ≤ v ∧ v ≤ maxInt then some v else none

/-- Decimal digits of a natural number in front of `acc`, most significant first. -/
def natDigits : Nat → Nat → List Char → List Char
  | 0, _, acc => acc
  | fuel + 1, n, acc =>
    if n < 10 then Char.ofNat (48 + n) :: acc
    else natDigits fuel (n / 10) (Char.ofNat (48 + n % 10) :: acc)

/-- Decimal text of an integer, the way a client writes the `{id}` of an item path
(what `strconv.Itoa` gives). -/
def itoa (n : Int) : List Char :=
  if n < 0 then '-' :: natDigits (n.natAbs + 1) n.natAbs []
  else natDigits (n.natAbs + 1) n.natAbs []

namespace ApiRest

/-! ## REST service: data model -/

/-- Todo defines the structure for a todo item. -/
structure Todo where
  ID : Int
  Title : String
  Completed : Bool
deriving DecidableEq

/-- Map index expression `m[k]` with the comma-ok form: the value stored under `k`, if any. -/
def mapGet : List (Int × Todo) → Int → Option Todo
  | [], _ => none
  | (k', v) :: m, k => if k' = k then some v else mapGet m k

/-- Map assignment `m[k] = v`: replaces the value of an existing key, adds the key otherwise. -/
def mapSet : List (Int × Todo) → Int → Todo → List (Int × Todo)
  | [], k, v => [(k, v)]
  | (k', v') :: m, k, v => if k' = k then (k, v) :: m else (k', v') :: mapSet m k v

/-- Builtin `delete(m, k)`. -/
def mapDelete (m : List (Int × Todo)) (k : Int) : List (Int × Todo) :=
  m.filter (fun e => decide (e.1 ≠ k))

/-- The in-memory data store: the package variables `todos` and `nextID`. -/
structure Store where
  todos : List (Int × Todo)
  nextID : Int
deriving DecidableEq

/-- Initial values of the package variables: `make(map[int]Todo)` and `1`. -/
def init : Store := { todos := [], nextID := 1 }

/-- What a handler writes as response body. -/
inductive Body where
  | empty
  | text (msg : String)
  | todo (t : Todo)
  | todoList (l : List Todo)
deriving DecidableEq

/-- Status code and body of a response. -/
structure Response where
  status : Nat
  body : Body
deriving DecidableEq

/-- The part of `*http.Request` the handlers read. `Body` is the outcome of
`json.NewDecoder(r.Body).Decode(&newTodo)`: the decoded value or the error text. -/
structure Request where
  Method : String
  Path : String
  Body : Except String Todo

/-- `http.NotFound`. -/
def notFound : Response := { status := 404, body := Body.text "404 page not found" }

/-- `http.Error(w, "Method not allowed", http.StatusMethodNotAllowed)`. -/
def methodNotAllowed : Response := { status := 405, body := Body.text "Method not allowed" }

/-! ## REST service: handlers -/

/-- Handler of the `/todos` endpoint (`todosHandler`). -/
def todosHandler (s : Store) (r : Request) : Store × Response :=
  if r.Method = "GET" then
    (s, { status := 200, body := Body.todoList (s.todos.map Prod.snd) })
  else if r.Method = "POST" then
    match r.Body with
    | Except.error err => (s, { status := 400, body := Body.text err })
    | Except.ok decoded =>
      let newTodo : Todo := { decoded with ID := s.nextID }
      ({ todos := mapSet s.todos newTodo.ID newTodo, nextID := wrapInt (s.nextID + 1) },
        { status := 201, body := Body.todo newTodo })
  else
    (s, methodNotAllowed)

/-- Path suffix `r.URL.Path[len("/todos/"):]`: the path without its first seven bytes,
which are the ASCII characters `/todos/` on every request routed to the item handler. -/
def pathSuffix (path : String) : List Char := path.data.drop 7

/-- Handler of the `/todos/{id}` endpoint (`todoByIDHandler`). -/
def todoByIDHandler (s : Store) (r : Request) : Store × Response :=
  match atoi (pathSuffix r.Path) with
  | none => (s, notFound)
  | some id =>
    match mapGet s.todos id with
    | none => (s, notFound)
    | some todo =>
      if r.Method = "GET" then
        (s, { status := 200, body := Body.todo todo })
      else if r.Method = "PUT" then
        let todo' : Todo := { todo with Completed := !todo.Completed }
        ({ s with todos := mapSet s.todos id todo' }, { status := 200, body := Body.todo todo' })
      else if r.Method = "DELETE" then
        ({ s with todos := mapDelete s.todos id }, { status := 204, body := Body.empty })
      else
        (s, methodNotAllowed)

/-- Routing done in `main`: the pattern `/todos` is the collection, everything
under `/todos/` goes to the item handler. -/
inductive Route where
  | collection
  | item
deriving DecidableEq

/-- One request served by the handler of its route. -/
def handle (s : Store) (q : Route × Request) : Store × Response :=
  match q.1 with
  | Route.collection => todosHandler s q.2
  | Route.item => todoByIDHandler s q.2

/-- Store after serving a sequence of requests, one after the other (the mutex serialises them). -/
def exec (s : Store) (qs : List (Route × Request)) : Store :=
  qs.foldl (fun st q => (handle st q).1) s

/-- Responses to a sequence of requests, in order. -/
def responses (s : Store) : List (Route × Request) → List Response
  | [] => []
  | q :: qs => (handle s q).2 :: responses (handle s q).1 qs

/-- The id a response announces when it is the answer of a successful Create. -/
def createdID (resp : Response) : Option Int :=
  if resp.status = 201 then
    match resp.body with
    | Body.todo t => some t.ID
    | _ => none
  else none

/-- Ids returned by the Creates of a sequence of requests, oldest first. -/
def issuedIDs (s : Store) (qs : List (Route × Request)) : List Int :=
  (responses s qs).filterMap createdID

end ApiRest

namespace ApiGql

/-! ## GraphQL service: data model and resolvers -/

/-- The Go struct for the Todo data. -/
structure Todo where
  ID : Int
  Title : String
  Completed : Bool
deriving DecidableEq

/-- In-memory data store, populated with the sample data. -/
def todos : List Todo :=
  [ { ID := 1, Title := "Learn Go", Completed := false },
    { ID := 2, Title := "Build a GraphQL Server", Completed := false },
    { ID := 3, Title := "Buy milk", Completed := true } ]

/-- Dynamic value of an entry of `ResolveParams.Args` (a Go `interface{}`). -/
inductive ArgValue where
  | int (n : Int)
  | bool (b : Bool)
  | other
deriving DecidableEq

/-- The part of `graphql.ResolveParams` the resolvers read: the argument map. -/
structure ResolveParams where
  Args : String → Option ArgValue

/-- Type assertion `v.(int)` in its comma-ok form. -/
def asInt : Option ArgValue → Int × Bool
  | some (ArgValue.int n) => (n, true)
  | _ => (0, false)

/-- Type assertion `v.(bool)` in its comma-ok form. -/
def asBool : Option ArgValue → Bool × Bool
  | some (ArgValue.bool b) => (b, true)
  | _ => (false, false)

/-- Value a resolver returns as `interface{}`. -/
inductive Value where
  | null
  | todo (t : Todo)
  | todoList (l : List Todo)
deriving DecidableEq

/-- The pair `(interface{}, error)` a resolver returns; `err = none` is a nil error. -/
structure Result where
  value : Value
  err : Option String
deriving DecidableEq

/-- The loop `for _, todo := range todos { if todo.ID == id { return todo, nil } }`. -/
def findTodo (id : Int) : List Todo → Option Todo
  | [] => none
  | todo :: rest => if todo.ID = id then some todo else findTodo id rest

/-- Resolver of the query field `todo`; returns the store it leaves and its result. -/
def todoResolve (store : List Todo) (p : ResolveParams) : List Todo × Result :=
  let a := asInt (p.Args "id")
  if a.2 then
    match findTodo a.1 store with
    | some todo => (store, { value := Value.todo todo, err := none })
    | none => (store, { value := Value.null, err := none })
  else (store, { value := Value.null, err := none })

/-- Resolver of the query field `todos`. -/
def todosResolve (store : List Todo) (_p : ResolveParams) : List Todo × Result :=
  (store, { value := Value.todoList store, err := none })

/-- Zero value of `Todo` (`var updatedTodo Todo`). -/
def zeroTodo : Todo := { ID := 0, Title := "", Completed := false }

/-- The loop of `updateTodo`: at the first index whose record has the id, write
`Completed`, copy the record to `updatedTodo` and break. Returns the list and `updatedTodo`. -/
def updateLoop (id : Int) (completed : Bool) : List Todo → List Todo × Todo
  | [] => ([], zeroTodo)
  | t :: rest =>
    if t.ID = id then
      ({ t with Completed := completed } :: rest, { t with Completed := completed })
    else
      ((t :: (updateLoop id completed rest).1), (updateLoop id completed rest).2)

/-- Resolver of the mutation field `updateTodo`; returns the store it leaves and its result. -/
def updateTodoResolve (store : List Todo) (params : ResolveParams) : List Todo × Result :=
  let id := (asInt (params.Args "id")).1
  let completed := (asBool (params.Args "completed")).1
  let r := updateLoop id completed store
  (r.1, { value := Value.todo r.2, err := none })

/-- Arguments of a call `f(id: ..., completed: ...)` as the library hands them to a resolver. -/
def mkArgs (id : Int) (completed : Option Bool) : ResolveParams :=
  { Args := fun name =>
      if name = "id" then some (ArgValue.int id)
      else if name = "completed" then completed.map ArgValue.bool
      else none }

end ApiGql

namespace ApiRest

/-! ## Predicates on stores and sample requests -/

/-- Representation invariant of the store relative to the ids issued so far: each
record sits under its own id, no key occurs twice, every key has been issued. -/
structure Inv (s : Store) (ids : List Int) : Prop where
  id_eq_key : ∀ e ∈ s.todos, e.2.ID = e.1
  keys_nodup : (s.todos.map Prod.fst).Nodup
  keys_issued : ∀ e ∈ s.todos, e.1 ∈ ids

/-- A `POST /todos` whose body decodes to the given payload. -/
def postReq (payload : Todo) : Route × Request :=
  (Route.collection, { Method := "POST", Path := "/todos", Body := Except.ok payload })

/-- A request on an item path without a body. -/
def itemReq (method path : String) : Route × Request :=
  (Route.item, { Method := method, Path := path, Body := Except.error "EOF" })

/-- The item path `/todos/{id}` written with the decimal text of `id`. -/
def itemPath (id : Int) : String := String.mk ("/todos/".data ++ itoa id)

/-- The Create used to drive the counter: `{"title":"t"}`. -/
def samplePost : Route × Request := postReq { ID := 0, Title := "t", Completed := false }

/-- As many Creates as a Go `int` has positive values (`maxInt` of them). -/
def overflowRun : List (Route × Request) :=
  List.replicate (9223372036854775806 + 1) samplePost

/-- As many Creates as a Go `int` has values (`2^64` of them). -/
def wrapRun : List (Route × Request) :=
  List.replicate (18446744073709551615 + 1) samplePost

end ApiRest

/-! ## Arithmetic of the counter -/

theorem wrapInt_of_inRange (x : Int) (h1 : minInt ≤ x) (h2 : x ≤ maxInt) : wrapInt x = x := by
  unfold wrapInt; unfold minInt at h1; unfold maxInt at h2; omega

theorem wrapInt_add_wrapInt (x : Int) (n : Int) : wrapInt (wrapInt x + n) = wrapInt (x + n) := by
  unfold wrapInt; omega

/-! ## `strconv.Atoi` reads back the decimal text of an `int` -/

theorem digitVal_ofNat (d : Nat) (h : d < 10) : digitVal (Char.ofNat (48 + d)) = some d := by
  interval_cases d <;> decide

theorem not_sign_of_digit (c : Char) (d : Nat) (h : digitVal c = some d) :
    c ≠ '-' ∧ c ≠ '+' := by
  constructor
  · rintro rfl
    have h0 : digitVal '-' = none := by decide
    rw [h0] at h
    cases h
  · rintro rfl
    have h0 : digitVal '+' = none := by decide
    rw [h0] at h
    cases h

theorem parseDigits_natDigits (fuel : Nat) : ∀ (n : Nat) (acc : List Char) (k m : Nat),
    n < fuel → (∀ a, parseDigits acc a = some (a * 10 ^ k + m)) →
    ∃ j, ∀ a, parseDigits (natDigits fuel n acc) a = some (a * 10 ^ j + (n * 10 ^ k + m)) := by
  induction fuel with
  | zero => intro n acc k m h; omega
  | succ fuel ih =>
    intro n acc k m h hacc
    by_cases hn : n < 10
    · refine ⟨k + 1, fun a => ?_⟩
      simp only [natDigits, hn, if_true, parseDigits, digitVal_ofNat n hn, hacc]
      congr 1
      ring
    · obtain ⟨j, hj⟩ := ih (n / 10) (Char.ofNat (48 + n % 10) :: acc) (k + 1)
        ((n % 10) * 10 ^ k + m) (by omega) (fun a => by
          simp only [parseDigits, digitVal_ofNat (n % 10) (Nat.mod_lt _ (by norm_num)), hacc]
          congr 1
          ring)
      refine ⟨j, fun a => ?_⟩
      simp only [natDigits, hn, if_false, hj]
      congr 2
      have hdm := Nat.div_add_mod n 10
      calc n / 10 * 10 ^ (k + 1) + (n % 10 * 10 ^ k + m)
          = (10 * (n / 10) + n % 10) * 10 ^ k + m := by ring
        _ = n * 10 ^ k + m := by rw [hdm]

theorem natDigits_head (fuel : Nat) : ∀ (n : Nat) (acc : List Char), n < fuel →
    ∃ c rest d, natDigits fuel n acc = c :: rest ∧ digitVal c = some d := by
  induction fuel with
  | zero => intro n acc h; omega
  | succ fuel ih =>
    intro n acc h
    by_cases hn : n < 10
    · exact ⟨_, acc, n, by simp [natDigits, hn], digitVal_ofNat n hn⟩
    · obtain ⟨c, rest, d, h1, h2⟩ := ih (n / 10) (Char.ofNat (48 + n % 10) :: acc) (by omega)
      exact ⟨c, rest, d, by simp [natDigits, hn, h1], h2⟩

theorem parseDigits_natDigits_nil (n : Nat) :
    parseDigits (natDigits (n + 1) n []) 0 = some n := by
  obtain ⟨j, hj⟩ := parseDigits_natDigits (n + 1) n [] 0 0 (by omega)
    (fun a => by simp [parseDigits])
  simpa using hj 0

/-- Every Go `int` is read back by `atoi` from its decimal text. -/
theorem atoi_itoa (n : Int) (h1 : minInt ≤ n) (h2 : n ≤ maxInt) : atoi (itoa n) = some n := by
  obtain ⟨c, rest, d, hc, hd⟩ := natDigits_head (n.natAbs + 1) n.natAbs [] (by omega)
  have hp := parseDigits_natDigits_nil n.natAbs
  by_cases hn : n < 0
  · have hne : natDigits (n.natAbs + 1) n.natAbs [] ≠ [] := by rw [hc]; simp
    have habs : -|n| = n := by rw [abs_of_neg hn]; ring
    simp [itoa, hn, atoi, hne, hp, habs, h1, h2]
  · have hv : ((n.natAbs : Nat) : Int) = n := by omega
    obtain ⟨hs1, hs2⟩ := not_sign_of_digit c d hd
    simp only [itoa, hn, if_false]
    rw [hc] at hp ⊢
    simp [atoi, hs1, hs2, hp, hv, h1, h2]

namespace ApiRest

/-! ## The map operations -/

theorem atoi_itemPath (id : Int) (h1 : minInt ≤ id) (h2 : id ≤ maxInt) :
    atoi (pathSuffix (itemPath id)) = some id :=
  atoi_itoa id h1 h2


theorem mapGet_mapSet_self (m : List (Int × Todo)) (k : Int) (v : Todo) :
    mapGet (mapSet m k v) k = some v := by
  induction m with
  | nil => simp [mapSet, mapGet]
  | cons e m ih =>
    obtain ⟨k', v'⟩ := e
    by_cases h : k' = k
    · simp [mapSet, mapGet, h]
    · simp [mapSet, mapGet, h, ih]

theorem mapGet_mapSet_ne (m : List (Int × Todo)) (k k' : Int) (v : Todo) (hne : k' ≠ k) :
    mapGet (mapSet m k v) k' = mapGet m k' := by
  induction m with
  | nil => simp [mapSet, mapGet, Ne.symm hne]
  | cons e m ih =>
    obtain ⟨k0, v0⟩ := e
    by_cases h : k0 = k
    · subst h
      simp [mapSet, mapGet, Ne.symm hne]
    · by_cases h' : k0 = k'
      · subst h'
        simp [mapSet, mapGet, h]
      · simp [mapSet, mapGet, h, h', ih]

theorem mapGet_mapDelete_self (m : List (Int × Todo)) (k : Int) :
    mapGet (mapDelete m k) k = none := by
  induction m with
  | nil => simp [mapDelete, mapGet]
  | cons e m ih =>
    obtain ⟨k0, v0⟩ := e
    by_cases h : k0 = k
    · simpa [mapDelete, List.filter, h] using ih
    · simpa [mapDelete, List.filter, h, mapGet] using ih

theorem mapGet_mapDelete_ne (m : List (Int × Todo)) (k k' : Int) (hne : k' ≠ k) :
    mapGet (mapDelete m k) k' = mapGet m k' := by
  induction m with
  | nil => simp [mapDelete, mapGet]
  | cons e m ih =>
    obtain ⟨k0, v0⟩ := e
    by_cases h : k0 = k
    · subst h
      simpa [mapDelete, List.filter, mapGet, Ne.symm hne] using ih
    · by_cases h' : k0 = k'
      · subst h'
        simp [mapDelete, List.filter, h, mapGet]
      · simpa [mapDelete, List.filter, h, mapGet, h'] using ih

theorem mapSet_mapSet_restore (m : List (Int × Todo)) (k : Int) (v0 v : Todo)
    (h : mapGet m k = some v0) : mapSet (mapSet m k v) k v0 = m := by
  induction m with
  | nil => simp [mapGet] at h
  | cons e m ih =>
    obtain ⟨k', v'⟩ := e
    by_cases hk : k' = k
    · subst hk
      simp [mapGet] at h
      simp [mapSet, h]
    · simp [mapGet, hk] at h
      simp [mapSet, hk, ih h]

theorem mem_of_mapGet (m : List (Int × Todo)) (k : Int) (v : Todo)
    (h : mapGet m k = some v) : (k, v) ∈ m := by
  induction m with
  | nil => simp [mapGet] at h
  | cons e m ih =>
    obtain ⟨k', v'⟩ := e
    by_cases hk : k' = k
    · subst hk
      simp [mapGet] at h
      simp [h]
    · simp [mapGet, hk] at h
      exact List.mem_cons_of_mem _ (ih h)

theorem mapGet_eq_none_of_not_key (m : List (Int × Todo)) (k : Int)
    (h : k ∉ m.map Prod.fst) : mapGet m k = none := by
  induction m with
  | nil => simp [mapGet]
  | cons e m ih =>
    obtain ⟨k', v'⟩ := e
    simp at h
    have hk : ¬ k' = k := fun hh => h.1 hh.symm
    simp only [mapGet, hk, if_false]
    exact ih (by simpa using h.2)

theorem mem_mapSet (m : List (Int × Todo)) (k : Int) (v : Todo) (e : Int × Todo)
    (h : e ∈ mapSet m k v) : e = (k, v) ∨ e ∈ m := by
  induction m with
  | nil => simpa [mapSet] using h
  | cons e0 m ih =>
    obtain ⟨k', v'⟩ := e0
    by_cases hk : k' = k
    · simp [mapSet, hk] at h
      rcases h with h | h
      · exact Or.inl h
      · exact Or.inr (List.mem_cons_of_mem _ h)
    · simp [mapSet, hk] at h
      rcases h with h | h
      · exact Or.inr (by simp [h])
      · rcases ih h with h' | h'
        · exact Or.inl h'
        · exact Or.inr (List.mem_cons_of_mem _ h')

theorem keys_mapSet_of_present (m : List (Int × Todo)) (k : Int) (v0 v : Todo)
    (h : mapGet m k = some v0) : (mapSet m k v).map Prod.fst = m.map Prod.fst := by
  induction m with
  | nil => simp [mapGet] at h
  | cons e m ih =>
    obtain ⟨k', v'⟩ := e
    by_cases hk : k' = k
    · simp [mapSet, hk]
    · simp [mapGet, hk] at h
      simp [mapSet, hk, ih h]

theorem keys_mapSet_of_absent (m : List (Int × Todo)) (k : Int) (v : Todo)
    (h : k ∉ m.map Prod.fst) : (mapSet m k v).map Prod.fst = m.map Prod.fst ++ [k] := by
  induction m with
  | nil => simp [mapSet]
  | cons e m ih =>
    obtain ⟨k', v'⟩ := e
    simp at h
    have hk : ¬ k' = k := fun hh => h.1 hh.symm
    simp [mapSet, hk]
    exact ih (by simpa using h.2)

theorem mem_mapDelete (m : List (Int × Todo)) (k : Int) (e : Int × Todo)
    (h : e ∈ mapDelete m k) : e ∈ m ∧ e.1 ≠ k := by
  simpa [mapDelete] using h

theorem keys_mapDelete_nodup (m : List (Int × Todo)) (k : Int)
    (h : (m.map Prod.fst).Nodup) : ((mapDelete m k).map Prod.fst).Nodup := by
  unfold mapDelete
  exact (List.Nodup.sublist ((List.filter_sublist m).map Prod.fst) h)

end ApiRest

namespace ApiRest

/-! ## Runs of the service -/

theorem exec_cons (s : Store) (q : Route × Request) (qs : List (Route × Request)) :
    exec s (q :: qs) = exec (handle s q).1 qs := rfl

theorem exec_append_singleton (s : Store) (qs : List (Route × Request)) (q : Route × Request) :
    exec s (qs ++ [q]) = (handle (exec s qs) q).1 := by
  simp [exec, List.foldl_append]

theorem responses_append_singleton (s : Store) (qs : List (Route × Request))
    (q : Route × Request) :
    responses s (qs ++ [q]) = responses s qs ++ [(handle (exec s qs) q).2] := by
  induction qs generalizing s with
  | nil => simp [responses, exec]
  | cons q0 qs ih => simp [responses, exec_cons, ih]

theorem issuedIDs_append_some (s : Store) (qs : List (Route × Request)) (q : Route × Request)
    (i : Int) (h : createdID (handle (exec s qs) q).2 = some i) :
    issuedIDs s (qs ++ [q]) = issuedIDs s qs ++ [i] := by
  simp [issuedIDs, responses_append_singleton, List.filterMap_append, h]

theorem issuedIDs_append_none (s : Store) (qs : List (Route × Request)) (q : Route × Request)
    (h : createdID (handle (exec s qs) q).2 = none) :
    issuedIDs s (qs ++ [q]) = issuedIDs s qs := by
  simp [issuedIDs, responses_append_singleton, List.filterMap_append, h]

/-! ## The handlers, case by case -/

theorem todoByIDHandler_unparsable (s : Store) (r : Request)
    (ha : atoi (pathSuffix r.Path) = none) : todoByIDHandler s r = (s, notFound) := by
  simp only [todoByIDHandler, ha]

theorem todoByIDHandler_absent (s : Store) (r : Request) (id : Int)
    (ha : atoi (pathSuffix r.Path) = some id) (hl : mapGet s.todos id = none) :
    todoByIDHandler s r = (s, notFound) := by
  simp only [todoByIDHandler, ha, hl]

theorem todoByIDHandler_present (s : Store) (r : Request) (id : Int) (todo : Todo)
    (ha : atoi (pathSuffix r.Path) = some id) (hl : mapGet s.todos id = some todo) :
    todoByIDHandler s r =
      if r.Method = "GET" then
        (s, { status := 200, body := Body.todo todo })
      else if r.Method = "PUT" then
        ({ s with todos := mapSet s.todos id { todo with Completed := !todo.Completed } },
          { status := 200, body := Body.todo { todo with Completed := !todo.Completed } })
      else if r.Method = "DELETE" then
        ({ s with todos := mapDelete s.todos id }, { status := 204, body := Body.empty })
      else
        (s, methodNotAllowed) := by
  simp only [todoByIDHandler, ha, hl]

theorem todosHandler_post (s : Store) (r : Request) (payload : Todo)
    (hm : r.Method = "POST") (hb : r.Body = Except.ok payload) :
    todosHandler s r =
      ({ todos := mapSet s.todos s.nextID { payload with ID := s.nextID },
         nextID := wrapInt (s.nextID + 1) },
        { status := 201, body := Body.todo { payload with ID := s.nextID } }) := by
  simp [todosHandler, hm, hb]

/-- What one request can do to the store: a Create, or no change, a toggle or a delete. -/
theorem handle_cases (s : Store) (q : Route × Request) :
    (∃ t : Todo, t.ID = s.nextID ∧
        (handle s q).1 = { todos := mapSet s.todos s.nextID t, nextID := wrapInt (s.nextID + 1) } ∧
        createdID (handle s q).2 = some s.nextID) ∨
    (createdID (handle s q).2 = none ∧ (handle s q).1.nextID = s.nextID ∧
      ((handle s q).1.todos = s.todos ∨
       (∃ id t, mapGet s.todos id = some t ∧
          (handle s q).1.todos = mapSet s.todos id { t with Completed := !t.Completed }) ∨
       (∃ id, (handle s q).1.todos = mapDelete s.todos id))) := by
  obtain ⟨route, r⟩ := q
  cases route with
  | collection =>
    simp only [handle]
    by_cases hg : r.Method = "GET"
    · right
      simp [todosHandler, hg, createdID]
    · by_cases hp : r.Method = "POST"
      · cases hb : r.Body with
        | error err =>
          right
          simp [todosHandler, hb, hg, hp, createdID]
        | ok decoded =>
          left
          rw [todosHandler_post s r decoded hp hb]
          exact ⟨{ decoded with ID := s.nextID }, rfl, rfl, by simp [createdID]⟩
      · right
        simp [todosHandler, hg, hp, createdID, methodNotAllowed]
  | item =>
    simp only [handle]
    right
    cases ha : atoi (pathSuffix r.Path) with
    | none => simp [todoByIDHandler_unparsable s r ha, createdID, notFound]
    | some id =>
      cases hl : mapGet s.todos id with
      | none => simp [todoByIDHandler_absent s r id ha hl, createdID, notFound]
      | some todo =>
        rw [todoByIDHandler_present s r id todo ha hl]
        by_cases hg : r.Method = "GET"
        · simp [hg, createdID]
        · by_cases hp : r.Method = "PUT"
          · simp only [hg, hp, if_true, if_false]
            exact ⟨by simp [createdID], rfl, Or.inr (Or.inl ⟨id, todo, hl, rfl⟩)⟩
          · by_cases hd : r.Method = "DELETE"
            · simp only [hg, hp, hd, if_true, if_false]
              exact ⟨by simp [createdID], rfl, Or.inr (Or.inr ⟨id, rfl⟩)⟩
            · simp [hg, hp, hd, createdID, methodNotAllowed]

/-! ## Invariants of the reachable states -/

theorem not_key_of_mapGet_none (m : List (Int × Todo)) (k : Int)
    (h : mapGet m k = none) : k ∉ m.map Prod.fst := by
  induction m with
  | nil => simp
  | cons e m ih =>
    obtain ⟨k', v'⟩ := e
    by_cases hk : k' = k
    · simp [mapGet, hk] at h
    · simp only [mapGet, hk, if_false] at h
      simp only [List.map_cons, List.mem_cons, not_or]
      exact ⟨fun hh => hk hh.symm, ih h⟩

theorem keys_mapSet_nodup (m : List (Int × Todo)) (k : Int) (v : Todo)
    (h : (m.map Prod.fst).Nodup) : ((mapSet m k v).map Prod.fst).Nodup := by
  cases hg : mapGet m k with
  | some v0 => rw [keys_mapSet_of_present m k v0 v hg]; exact h
  | none =>
    have hk := not_key_of_mapGet_none m k hg
    rw [keys_mapSet_of_absent m k v hk]
    exact List.Nodup.append h (List.nodup_singleton k) (by simpa using hk)

theorem inv_init : Inv init [] :=
  ⟨by simp [init], by simp [init], by simp [init]⟩

/-- One request keeps the representation invariant, with the issued ids extended
by the id of the response when it is a Create. -/
theorem inv_step (s : Store) (ids : List Int) (q : Route × Request) (h : Inv s ids) :
    Inv (handle s q).1 (ids ++ (createdID (handle s q).2).toList) := by
  rcases handle_cases s q with ⟨t, ht, hs, hc⟩ | ⟨hc, -, hs | ⟨id, t, hg, hs⟩ | ⟨id, hs⟩⟩
  · rw [hs, hc]
    refine ⟨?_, keys_mapSet_nodup _ _ _ h.keys_nodup, ?_⟩
    · intro e he
      rcases mem_mapSet _ _ _ _ he with rfl | he
      · exact ht
      · exact h.id_eq_key e he
    · intro e he
      rcases mem_mapSet _ _ _ _ he with rfl | he
      · simp
      · simp [h.keys_issued e he]
  · rw [hc]
    refine ⟨?_, ?_, ?_⟩
    · rw [hs]; exact h.id_eq_key
    · rw [hs]; exact h.keys_nodup
    · rw [hs]; intro e he; simp [h.keys_issued e he]
  · rw [hc]
    have hmem := mem_of_mapGet _ _ _ hg
    refine ⟨?_, ?_, ?_⟩
    · rw [hs]
      intro e he
      rcases mem_mapSet _ _ _ _ he with rfl | he
      · exact h.id_eq_key (id, t) hmem
      · exact h.id_eq_key e he
    · rw [hs]; exact keys_mapSet_nodup _ _ _ h.keys_nodup
    · rw [hs]
      intro e he
      rcases mem_mapSet _ _ _ _ he with rfl | he
      · simpa using h.keys_issued _ hmem
      · simp [h.keys_issued e he]
  · rw [hc]
    refine ⟨?_, ?_, ?_⟩
    · rw [hs]; intro e he; exact h.id_eq_key e (mem_mapDelete _ _ _ he).1
    · rw [hs]; exact keys_mapDelete_nodup _ _ h.keys_nodup
    · rw [hs]; intro e he; simp [h.keys_issued e (mem_mapDelete _ _ _ he).1]

theorem issuedIDs_append_singleton (s : Store) (qs : List (Route × Request))
    (q : Route × Request) :
    issuedIDs s (qs ++ [q]) = issuedIDs s qs ++ (createdID (handle (exec s qs) q).2).toList := by
  cases h : createdID (handle (exec s qs) q).2 with
  | none => simp [issuedIDs_append_none s qs q h]
  | some i => simp [issuedIDs_append_some s qs q i h]

/-- Every reachable state satisfies the representation invariant. -/
theorem inv_exec (qs : List (Route × Request)) : Inv (exec init qs) (issuedIDs init qs) := by
  induction qs using List.reverseRecOn with
  | nil => exact inv_init
  | append_singleton qs q ih =>
    rw [exec_append_singleton, issuedIDs_append_singleton]
    exact inv_step _ _ q ih

/-- While fewer than `maxInt` ids have been issued the counter has not wrapped:
it is one more than the number of ids issued, and the ids issued are below it. -/
theorem counter_exec (qs : List (Route × Request))
    (h : ((issuedIDs init qs).length : Int) < maxInt) :
    (exec init qs).nextID = 1 + ((issuedIDs init qs).length : Int) ∧
      ∀ i ∈ issuedIDs init qs, 1 ≤ i ∧ i < (exec init qs).nextID := by
  induction qs using List.reverseRecOn with
  | nil => simp [exec, init, issuedIDs, responses]
  | append_singleton qs q ih =>
    rw [exec_append_singleton]
    rcases handle_cases (exec init qs) q with ⟨t, -, hs, hc⟩ | ⟨hc, hn, -⟩
    · rw [issuedIDs_append_some init qs q _ hc] at h ⊢
      simp only [List.length_append, List.length_singleton, Nat.cast_add, Nat.cast_one] at h ⊢
      obtain ⟨ih1, ih2⟩ := ih (by omega)
      have hlen : (0 : Int) ≤ ((issuedIDs init qs).length : Int) := Int.natCast_nonneg _
      have hw : wrapInt ((exec init qs).nextID + 1) = (exec init qs).nextID + 1 := by
        apply wrapInt_of_inRange
        · unfold minInt; omega
        · omega
      rw [hs]
      simp only [hw]
      refine ⟨by omega, ?_⟩
      intro i hi
      rcases List.mem_append.1 hi with hi | hi
      · have := ih2 i hi
        omega
      · simp only [List.mem_singleton] at hi
        omega
    · rw [issuedIDs_append_none init qs q hc] at h ⊢
      obtain ⟨ih1, ih2⟩ := ih h
      rw [hn]
      exact ⟨ih1, ih2⟩

/-- In every reachable state the counter is one more than the number of ids issued,
wrapped into the `int` range, and each id issued is such a wrapped count. -/
theorem counter_wrap_exec (qs : List (Route × Request)) :
    (exec init qs).nextID = wrapInt (1 + ((issuedIDs init qs).length : Int)) ∧
      ∀ i ∈ issuedIDs init qs,
        ∃ j : Nat, j < (issuedIDs init qs).length ∧ i = wrapInt (1 + (j : Int)) := by
  induction qs using List.reverseRecOn with
  | nil =>
    refine ⟨?_, by simp [issuedIDs, responses]⟩
    simp only [exec, init, issuedIDs, responses, List.foldl_nil, List.filterMap_nil,
      List.length_nil, Nat.cast_zero]
    decide
  | append_singleton qs q ih =>
    obtain ⟨ih1, ih2⟩ := ih
    rw [exec_append_singleton]
    rcases handle_cases (exec init qs) q with ⟨t, -, hs, hc⟩ | ⟨hc, hn, -⟩
    · rw [issuedIDs_append_some init qs q _ hc, hs]
      simp only [List.length_append, List.length_singleton, Nat.cast_add, Nat.cast_one]
      refine ⟨?_, ?_⟩
      · rw [ih1, wrapInt_add_wrapInt]
        congr 1
      · intro i hi
        rcases List.mem_append.1 hi with hi | hi
        · obtain ⟨j, hj, hij⟩ := ih2 i hi
          exact ⟨j, by omega, hij⟩
        · simp only [List.mem_singleton] at hi
          exact ⟨(issuedIDs init qs).length, by omega, by rw [hi, ih1]⟩
    · rw [issuedIDs_append_none init qs q hc, hn]
      exact ⟨ih1, ih2⟩

/-- While fewer than `2^64` ids have been issued the counter is none of them. -/
theorem nextID_not_issued (qs : List (Route × Request))
    (h : ((issuedIDs init qs).length : Int) < intCount) :
    (exec init qs).nextID ∉ issuedIDs init qs := by
  obtain ⟨h1, h2⟩ := counter_wrap_exec qs
  intro hmem
  obtain ⟨j, hj, hij⟩ := h2 _ hmem
  rw [h1] at hij
  unfold intCount at h
  unfold wrapInt at hij
  omega

/-! ## The counter after `maxInt` Creates -/

theorem wrapInt_inRange (x : Int) : minInt ≤ wrapInt x ∧ wrapInt x ≤ maxInt := by
  unfold wrapInt minInt maxInt; omega

theorem handle_samplePost (s : Store) :
    (handle s samplePost).1 =
      { todos := mapSet s.todos s.nextID { ID := s.nextID, Title := "t", Completed := false },
        nextID := wrapInt (s.nextID + 1) } := by
  simp [handle, samplePost, postReq, todosHandler]

theorem exec_replicate_nextID (n : Nat) (s : Store)
    (h1 : minInt ≤ s.nextID) (h2 : s.nextID ≤ maxInt) :
    (exec s (List.replicate n samplePost)).nextID = wrapInt (s.nextID + (n : Int)) := by
  induction n generalizing s with
  | zero => simp [exec, wrapInt_of_inRange _ h1 h2]
  | succ n ih =>
    rw [List.replicate_succ, exec_cons, ih _ (by rw [handle_samplePost]; exact (wrapInt_inRange _).1)
      (by rw [handle_samplePost]; exact (wrapInt_inRange _).2), handle_samplePost]
    simp only [wrapInt_add_wrapInt, Nat.cast_add, Nat.cast_one]
    congr 1
    ring

theorem exec_replicate_keeps_record (n : Nat) (s : Store) (k : Int)
    (h : mapGet s.todos k = some { ID := k, Title := "t", Completed := false }) :
    mapGet (exec s (List.replicate n samplePost)).todos k =
      some { ID := k, Title := "t", Completed := false } := by
  induction n generalizing s with
  | zero => simpa [exec] using h
  | succ n ih =>
    rw [List.replicate_succ, exec_cons]
    apply ih
    rw [handle_samplePost]
    by_cases hk : k = s.nextID
    · subst hk
      simp [mapGet_mapSet_self]
    · simpa [mapGet_mapSet_ne _ _ _ _ hk] using h

theorem wrapRun_nextID : (exec init wrapRun).nextID = 1 := by
  unfold wrapRun
  rw [exec_replicate_nextID _ init (by decide) (by decide)]
  decide

theorem wrapRun_keeps_first :
    mapGet (exec init wrapRun).todos 1 = some { ID := 1, Title := "t", Completed := false } := by
  unfold wrapRun
  rw [List.replicate_succ, exec_cons]
  apply exec_replicate_keeps_record
  rw [handle_samplePost]
  simp [init, mapGet_mapSet_self]

theorem overflowRun_nextID : (exec init overflowRun).nextID = minInt := by
  unfold overflowRun
  rw [exec_replicate_nextID _ init (by decide) (by decide)]
  decide

theorem overflowRun_keeps_first :
    mapGet (exec init overflowRun).todos 1 =
      some { ID := 1, Title := "t", Completed := false } := by
  unfold overflowRun
  rw [List.replicate_succ, exec_cons]
  apply exec_replicate_keeps_record
  rw [handle_samplePost]
  simp [init, mapGet_mapSet_self]

/-! ## Claims on the REST service -/

/-- C1: after any sequence of requests from the initial store during which the
counter has not overflowed (fewer than `maxInt` ids issued), a `POST /todos` with a
decodable payload answers 201 with a record whose id is strictly greater than every id
returned by an earlier Create (deleted or not), and a `GET /todos/{id}` on that id issued
right afterwards answers 200 with the payload's title and completed flag; the path
`/todos/` followed by the decimal text of the id is such a request. -/
theorem create_id_fresh_and_get_reads_back (qs : List (Route × Request)) (r : Request)
    (payload : Todo) (hm : r.Method = "POST") (hb : r.Body = Except.ok payload)
    (hno : ((issuedIDs init qs).length : Int) < maxInt) :
    ∃ t : Todo,
      (todosHandler (exec init qs) r).2 = { status := 201, body := Body.todo t } ∧
      createdID (todosHandler (exec init qs) r).2 = some t.ID ∧
      (∀ i ∈ issuedIDs init qs, i < t.ID) ∧
      t.Title = payload.Title ∧ t.Completed = payload.Completed ∧
      (∀ g : Request, g.Method = "GET" → atoi (pathSuffix g.Path) = some t.ID →
        (todoByIDHandler (todosHandler (exec init qs) r).1 g).2 =
          { status := 200,
            body := Body.todo
              { ID := t.ID, Title := payload.Title, Completed := payload.Completed } }) ∧
      atoi (pathSuffix (itemPath t.ID)) = some t.ID := by
  obtain ⟨hnext, hlt⟩ := counter_exec qs hno
  refine ⟨{ payload with ID := (exec init qs).nextID }, ?_, ?_, ?_, rfl, rfl, ?_, ?_⟩
  · rw [todosHandler_post _ r payload hm hb]
  · rw [todosHandler_post _ r payload hm hb]
    simp [createdID]
  · intro i hi
    exact (hlt i hi).2
  · intro g hg ha
    rw [todosHandler_post _ r payload hm hb]
    rw [todoByIDHandler_present _ g _ _ ha (mapGet_mapSet_self _ _ _)]
    simp [hg]
  · have hlen : (0 : Int) ≤ ((issuedIDs init qs).length : Int) := Int.natCast_nonneg _
    apply atoi_itemPath
    · show minInt ≤ (exec init qs).nextID
      unfold minInt
      omega
    · show (exec init qs).nextID ≤ maxInt
      omega

theorem create_id_fresh_and_get_reads_back_witness :
    ∃ t : Todo,
      (todosHandler (exec init [samplePost, itemReq "DELETE" "/todos/1"])
          (postReq { ID := 1, Title := "b", Completed := true }).2).2 =
        { status := 201, body := Body.todo t } ∧
      createdID (todosHandler (exec init [samplePost, itemReq "DELETE" "/todos/1"])
          (postReq { ID := 1, Title := "b", Completed := true }).2).2 = some t.ID ∧
      (∀ i ∈ issuedIDs init [samplePost, itemReq "DELETE" "/todos/1"], i < t.ID) ∧
      t.Title = "b" ∧ t.Completed = true ∧
      (∀ g : Request, g.Method = "GET" → atoi (pathSuffix g.Path) = some t.ID →
        (todoByIDHandler (todosHandler (exec init [samplePost, itemReq "DELETE" "/todos/1"])
          (postReq { ID := 1, Title := "b", Completed := true }).2).1 g).2 =
          { status := 200,
            body := Body.todo { ID := t.ID, Title := "b", Completed := true } }) ∧
      atoi (pathSuffix (itemPath t.ID)) = some t.ID :=
  create_id_fresh_and_get_reads_back [samplePost, itemReq "DELETE" "/todos/1"]
    (postReq { ID := 1, Title := "b", Completed := true }).2
    { ID := 1, Title := "b", Completed := true } rfl rfl (by decide)

/-- C2 as stated fails: after `maxInt` Creates the counter has wrapped to `minInt`, so
the id 1 is not below `nextID`, and yet `GET /todos/1` answers 200; one Create later the
id `minInt`, which is `<= 0`, is in the store and `GET` on it answers 200 as well. -/
theorem unissued_ids_counterexample :
    ((exec init overflowRun).nextID ≤ 1 ∧
      (todoByIDHandler (exec init overflowRun) (itemReq "GET" "/todos/1").2).2.status = 200) ∧
    (minInt ≤ 0 ∧
      (todoByIDHandler (exec init (overflowRun ++ [samplePost]))
        (itemReq "GET" "/todos/-9223372036854775808").2).2.status = 200) := by
  refine ⟨⟨by rw [overflowRun_nextID]; decide, ?_⟩, by decide, ?_⟩
  · rw [todoByIDHandler_present _ _ 1 _ (by decide) overflowRun_keeps_first]
    simp [itemReq]
  · have hget : mapGet (exec init (overflowRun ++ [samplePost])).todos minInt =
        some { ID := minInt, Title := "t", Completed := false } := by
      rw [exec_append_singleton, handle_samplePost, overflowRun_nextID]
      dsimp only
      rw [mapGet_mapSet_self]
    rw [todoByIDHandler_present _ _ minInt _ (by decide) hget]
    simp [itemReq]

/-- C2 (amended): in every state reachable from the initial store, a request on
`/todos/{id}` whose id no earlier Create has returned, or whose suffix is not an integer,
answers 404 and leaves the map and `nextID` as they were, whatever the method (GET, PUT
and DELETE included); and as long as the counter has not overflowed (fewer than `maxInt`
ids issued), every id `<= 0` and every id `>= nextID` is such an id. -/
theorem unissued_ids_not_found (qs : List (Route × Request)) (g : Request) :
    (atoi (pathSuffix g.Path) = none →
        todoByIDHandler (exec init qs) g = (exec init qs, notFound)) ∧
    (∀ id : Int, atoi (pathSuffix g.Path) = some id → id ∉ issuedIDs init qs →
        todoByIDHandler (exec init qs) g = (exec init qs, notFound)) ∧
    (((issuedIDs init qs).length : Int) < maxInt →
        ∀ id : Int, id ≤ 0 ∨ (exec init qs).nextID ≤ id →
          id ∉ issuedIDs init qs ∧
          (atoi (pathSuffix g.Path) = some id →
            todoByIDHandler (exec init qs) g = (exec init qs, notFound))) ∧
    notFound.status = 404 := by
  have habsent : ∀ id : Int, atoi (pathSuffix g.Path) = some id → id ∉ issuedIDs init qs →
      todoByIDHandler (exec init qs) g = (exec init qs, notFound) := by
    intro id ha hid
    apply todoByIDHandler_absent _ g id ha
    apply mapGet_eq_none_of_not_key
    intro hk
    obtain ⟨e, he, rfl⟩ := List.mem_map.1 hk
    exact hid ((inv_exec qs).keys_issued e he)
  refine ⟨todoByIDHandler_unparsable _ g, habsent, ?_, rfl⟩
  intro hno id hid
  have hfresh : id ∉ issuedIDs init qs := by
    intro hmem
    have := (counter_exec qs hno).2 id hmem
    omega
  exact ⟨hfresh, fun ha => habsent id ha hfresh⟩

theorem unissued_ids_not_found_witness :
    todoByIDHandler (exec init [samplePost]) (itemReq "PUT" "/todos/2").2 =
        (exec init [samplePost], notFound) ∧
      (2 : Int) ∉ issuedIDs init [samplePost] ∧
      todoByIDHandler (exec init [samplePost]) (itemReq "DELETE" "/todos/x").2 =
        (exec init [samplePost], notFound) :=
  ⟨(unissued_ids_not_found [samplePost] (itemReq "PUT" "/todos/2").2).2.1 2
      (by decide) (by decide),
    ((unissued_ids_not_found [samplePost] (itemReq "PUT" "/todos/2").2).2.2.1
      (by decide) 2 (Or.inr (by decide))).1,
    (unissued_ids_not_found [samplePost] (itemReq "DELETE" "/todos/x").2).1 (by decide)⟩

/-- C3 as stated fails: on the empty store a PATCH on `/todos/abc` (suffix not an
integer) and a PATCH on `/todos/1` (id not in the store) answer 404, not 405. -/
theorem method_not_allowed_counterexample :
    (todoByIDHandler init (itemReq "PATCH" "/todos/abc").2).2.status = 404 ∧
      (todoByIDHandler init (itemReq "PATCH" "/todos/1").2).2.status = 404 ∧
      (todoByIDHandler init (itemReq "PATCH" "/todos/abc").2).2.status ≠ 405 := by
  decide

/-- C3 (amended): every method other than GET/POST on `/todos` answers 405; a method other
than GET/PUT/DELETE on `/todos/{id}` answers 405 when the suffix parses as an integer that
is a key of the store, and 404 when the suffix does not parse or the id is not in the
store (the handler looks the id up before it looks at the method). The store is unchanged
in each case. -/
theorem method_not_allowed_after_lookup (s : Store) (r : Request) :
    (r.Method ≠ "GET" → r.Method ≠ "POST" → todosHandler s r = (s, methodNotAllowed)) ∧
    (r.Method ≠ "GET" → r.Method ≠ "PUT" → r.Method ≠ "DELETE" →
      ((∃ id, atoi (pathSuffix r.Path) = some id ∧ (mapGet s.todos id).isSome) →
          todoByIDHandler s r = (s, methodNotAllowed)) ∧
      ((¬ ∃ id, atoi (pathSuffix r.Path) = some id ∧ (mapGet s.todos id).isSome) →
          todoByIDHandler s r = (s, notFound))) ∧
    methodNotAllowed.status = 405 ∧ notFound.status = 404 := by
  refine ⟨?_, ?_, rfl, rfl⟩
  · intro hg hp
    simp [todosHandler, hg, hp]
  · intro hg hp hd
    constructor
    · rintro ⟨id, ha, hl⟩
      obtain ⟨t, ht⟩ := Option.isSome_iff_exists.1 hl
      rw [todoByIDHandler_present s r id t ha ht]
      simp [hg, hp, hd]
    · intro hno
      cases ha : atoi (pathSuffix r.Path) with
      | none => exact todoByIDHandler_unparsable s r ha
      | some id =>
        cases hl : mapGet s.todos id with
        | none => exact todoByIDHandler_absent s r id ha hl
        | some t => exact absurd ⟨id, ha, by simp [hl]⟩ hno

theorem method_not_allowed_after_lookup_witness :
    todosHandler init { Method := "PATCH", Path := "/todos", Body := Except.error "EOF" } =
        (init, methodNotAllowed) ∧
      todoByIDHandler (exec init [samplePost]) (itemReq "PATCH" "/todos/1").2 =
        (exec init [samplePost], methodNotAllowed) ∧
      todoByIDHandler (exec init [samplePost]) (itemReq "PATCH" "/todos/7").2 =
        (exec init [samplePost], notFound) :=
  ⟨(method_not_allowed_after_lookup init
      { Method := "PATCH", Path := "/todos", Body := Except.error "EOF" }).1
      (by decide) (by decide),
    ((method_not_allowed_after_lookup (exec init [samplePost])
      (itemReq "PATCH" "/todos/1").2).2.1 (by decide) (by decide) (by decide)).1
      ⟨1, by decide, by decide⟩,
    ((method_not_allowed_after_lookup (exec init [samplePost])
      (itemReq "PATCH" "/todos/7").2).2.1 (by decide) (by decide) (by decide)).2
      (by decide)⟩

/-- C4: for every store and every id that is a key of the map, two consecutive
`PUT /todos/{id}` both answer 200, the first with the record's completed flag negated, the
second with the original record, and the store (map and `nextID`) after the second PUT is
the store before the first. -/
theorem toggle_twice_restores (s : Store) (r1 r2 : Request) (id : Int) (t : Todo)
    (hm1 : r1.Method = "PUT") (hm2 : r2.Method = "PUT")
    (ha1 : atoi (pathSuffix r1.Path) = some id) (ha2 : atoi (pathSuffix r2.Path) = some id)
    (hl : mapGet s.todos id = some t) :
    (todoByIDHandler s r1).2 =
        { status := 200,
          body := Body.todo { ID := t.ID, Title := t.Title, Completed := !t.Completed } } ∧
      (todoByIDHandler (todoByIDHandler s r1).1 r2).2 = { status := 200, body := Body.todo t } ∧
      (todoByIDHandler (todoByIDHandler s r1).1 r2).1 = s := by
  have e1 : todoByIDHandler s r1 =
      ({ s with todos := mapSet s.todos id { t with Completed := !t.Completed } },
        { status := 200, body := Body.todo { t with Completed := !t.Completed } }) := by
    rw [todoByIDHandler_present s r1 id t ha1 hl]
    simp [hm1]
  have e2 : todoByIDHandler (todoByIDHandler s r1).1 r2 =
      ({ s with todos := mapSet (mapSet s.todos id { t with Completed := !t.Completed }) id t },
        { status := 200, body := Body.todo t }) := by
    rw [e1, todoByIDHandler_present _ r2 id { t with Completed := !t.Completed } ha2
      (mapGet_mapSet_self _ _ _)]
    simp [hm2]
  refine ⟨by rw [e1], by rw [e2], ?_⟩
  rw [e2]
  simp only [mapSet_mapSet_restore s.todos id t _ hl]

theorem toggle_twice_restores_witness :
    (todoByIDHandler (exec init [samplePost]) (itemReq "PUT" "/todos/1").2).2 =
        { status := 200, body := Body.todo { ID := 1, Title := "t", Completed := true } } ∧
      (todoByIDHandler (todoByIDHandler (exec init [samplePost]) (itemReq "PUT" "/todos/1").2).1
          (itemReq "PUT" "/todos/+1").2).2 =
        { status := 200, body := Body.todo { ID := 1, Title := "t", Completed := false } } ∧
      (todoByIDHandler (todoByIDHandler (exec init [samplePost]) (itemReq "PUT" "/todos/1").2).1
          (itemReq "PUT" "/todos/+1").2).1 = exec init [samplePost] :=
  toggle_twice_restores (exec init [samplePost]) (itemReq "PUT" "/todos/1").2
    (itemReq "PUT" "/todos/+1").2 1 { ID := 1, Title := "t", Completed := false }
    rfl rfl (by decide) (by decide) (by decide)

/-- C5: for every store and every id that is a key of the map, `DELETE /todos/{id}`
answers 204 with an empty body, removes that key and no other (the other entries and
`nextID` are unchanged), and a request on `/todos/{id}` for the same id right afterwards,
a GET in particular, answers 404. -/
theorem delete_then_get_not_found (s : Store) (r g : Request) (id : Int) (t : Todo)
    (hm : r.Method = "DELETE") (ha : atoi (pathSuffix r.Path) = some id)
    (hl : mapGet s.todos id = some t) (hga : atoi (pathSuffix g.Path) = some id) :
    (todoByIDHandler s r).2 = { status := 204, body := Body.empty } ∧
      mapGet (todoByIDHandler s r).1.todos id = none ∧
      (∀ k : Int, k ≠ id → mapGet (todoByIDHandler s r).1.todos k = mapGet s.todos k) ∧
      (∀ e : Int × Todo, e ∈ (todoByIDHandler s r).1.todos ↔ e ∈ s.todos ∧ e.1 ≠ id) ∧
      (todoByIDHandler s r).1.nextID = s.nextID ∧
      todoByIDHandler (todoByIDHandler s r).1 g = ((todoByIDHandler s r).1, notFound) ∧
      notFound.status = 404 := by
  have e1 : todoByIDHandler s r =
      ({ s with todos := mapDelete s.todos id }, { status := 204, body := Body.empty }) := by
    rw [todoByIDHandler_present s r id t ha hl]
    have h1 : ¬ ("DELETE" = "GET") := by decide
    have h2 : ¬ ("DELETE" = "PUT") := by decide
    simp [hm, h1, h2]
  rw [e1]
  refine ⟨rfl, mapGet_mapDelete_self _ _, fun k hk => mapGet_mapDelete_ne _ _ _ hk, ?_, rfl,
    ?_, rfl⟩
  · intro e
    simp [mapDelete]
  · exact todoByIDHandler_absent _ g id hga (mapGet_mapDelete_self _ _)

theorem delete_then_get_not_found_witness :
    (todoByIDHandler (exec init [samplePost, samplePost]) (itemReq "DELETE" "/todos/2").2).2 =
        { status := 204, body := Body.empty } ∧
      todoByIDHandler
          (todoByIDHandler (exec init [samplePost, samplePost])
            (itemReq "DELETE" "/todos/2").2).1
          (itemReq "GET" "/todos/2").2 =
        ((todoByIDHandler (exec init [samplePost, samplePost])
            (itemReq "DELETE" "/todos/2").2).1, notFound) :=
  ⟨(delete_then_get_not_found (exec init [samplePost, samplePost])
      (itemReq "DELETE" "/todos/2").2 (itemReq "GET" "/todos/2").2 2
      { ID := 2, Title := "t", Completed := false } rfl (by decide) (by decide)
      (by decide)).1,
    (delete_then_get_not_found (exec init [samplePost, samplePost])
      (itemReq "DELETE" "/todos/2").2 (itemReq "GET" "/todos/2").2 2
      { ID := 2, Title := "t", Completed := false } rfl (by decide) (by decide)
      (by decide)).2.2.2.2.2.1⟩

/-- C6 as stated fails: after `maxInt` Creates the counter has wrapped to `minInt`
while the record created first is still stored under key 1, which is not below `nextID`;
and after `2^64` Creates the counter is back at 1, so that the next Create overwrites the
record stored under key 1. -/
theorem id_invariant_counterexample :
    (∃ e ∈ (exec init overflowRun).todos,
        e.1 = 1 ∧ ¬ (e.1 < (exec init overflowRun).nextID)) ∧
    (mapGet (exec init wrapRun).todos 1 = some { ID := 1, Title := "t", Completed := false } ∧
      mapGet (todosHandler (exec init wrapRun)
          (postReq { ID := 0, Title := "u", Completed := true }).2).1.todos 1 =
        some { ID := 1, Title := "u", Completed := true }) := by
  refine ⟨?_, wrapRun_keeps_first, ?_⟩
  · refine ⟨(1, _), mem_of_mapGet _ _ _ overflowRun_keeps_first, rfl, ?_⟩
    rw [overflowRun_nextID]
    show ¬ ((1 : Int) < minInt)
    decide
  · rw [todosHandler_post _ _ { ID := 0, Title := "u", Completed := true } rfl rfl,
      wrapRun_nextID]
    dsimp only
    rw [mapGet_mapSet_self]

/-- C6 (amended): in every state reachable from the initial store every stored record has
an ID field equal to its map key and no key occurs twice, so the List response never holds
two records with the same id and `GET /todos/{id}` on a stored id returns a record whose id
is `{id}`; as long as fewer than `maxInt` (2^63-1) ids have been issued every key satisfies
`1 <= key < nextID`; and as long as fewer than `intCount` (2^64) ids have been issued
`nextID` is not a key and a Create leaves every record already stored as it was. -/
theorem id_invariant (qs : List (Route × Request)) :
    (∀ e ∈ (exec init qs).todos, e.2.ID = e.1) ∧
    ((exec init qs).todos.map Prod.fst).Nodup ∧
    (∀ r : Request, r.Method = "GET" →
      ∃ l : List Todo, (todosHandler (exec init qs) r).2 = { status := 200, body := Body.todoList l } ∧
        (l.map Todo.ID).Nodup) ∧
    (∀ (g : Request) (id : Int), g.Method = "GET" → atoi (pathSuffix g.Path) = some id →
      (mapGet (exec init qs).todos id).isSome →
      ∃ t : Todo, (todoByIDHandler (exec init qs) g).2 = { status := 200, body := Body.todo t } ∧
        t.ID = id) ∧
    (((issuedIDs init qs).length : Int) < maxInt →
      ∀ e ∈ (exec init qs).todos, 1 ≤ e.1 ∧ e.1 < (exec init qs).nextID) ∧
    (((issuedIDs init qs).length : Int) < intCount →
      mapGet (exec init qs).todos (exec init qs).nextID = none ∧
      ∀ (r : Request) (payload : Todo), r.Method = "POST" → r.Body = Except.ok payload →
        ∀ (k : Int) (t : Todo), mapGet (exec init qs).todos k = some t →
          mapGet (todosHandler (exec init qs) r).1.todos k = some t) := by
  have hinv := inv_exec qs
  have hids : (exec init qs).todos.map (fun e => e.2.ID) = (exec init qs).todos.map Prod.fst :=
    List.map_congr_left hinv.id_eq_key
  refine ⟨hinv.id_eq_key, hinv.keys_nodup, ?_, ?_, ?_, ?_⟩
  · intro r hr
    refine ⟨(exec init qs).todos.map Prod.snd, by simp [todosHandler, hr], ?_⟩
    rw [List.map_map]
    exact hids ▸ hinv.keys_nodup
  · intro g id hg ha hl
    obtain ⟨t, ht⟩ := Option.isSome_iff_exists.1 hl
    refine ⟨t, ?_, hinv.id_eq_key (id, t) (mem_of_mapGet _ _ _ ht)⟩
    rw [todoByIDHandler_present _ g id t ha ht]
    simp [hg]
  · intro hno e he
    exact (counter_exec qs hno).2 e.1 (hinv.keys_issued e he)
  · intro hno
    have hfresh : mapGet (exec init qs).todos (exec init qs).nextID = none := by
      apply mapGet_eq_none_of_not_key
      intro hk
      obtain ⟨e, he, heq⟩ := List.mem_map.1 hk
      apply nextID_not_issued qs hno
      rw [← heq]
      exact hinv.keys_issued e he
    refine ⟨hfresh, ?_⟩
    intro r payload hm hb k t hk
    rw [todosHandler_post _ r payload hm hb]
    have hne : k ≠ (exec init qs).nextID := by
      intro h
      rw [h, hfresh] at hk
      cases hk
    simpa [mapGet_mapSet_ne _ _ _ _ hne] using hk

theorem id_invariant_witness :
    (∃ l : List Todo,
        (todosHandler (exec init [samplePost, samplePost])
          { Method := "GET", Path := "/todos", Body := Except.error "EOF" }).2 =
          { status := 200, body := Body.todoList l } ∧ (l.map Todo.ID).Nodup) ∧
      (∀ e ∈ (exec init [samplePost, samplePost]).todos,
        1 ≤ e.1 ∧ e.1 < (exec init [samplePost, samplePost]).nextID) ∧
      mapGet (exec init [samplePost, samplePost]).todos
        (exec init [samplePost, samplePost]).nextID = none :=
  ⟨(id_invariant [samplePost, samplePost]).2.2.1
      { Method := "GET", Path := "/todos", Body := Except.error "EOF" } rfl,
    (id_invariant [samplePost, samplePost]).2.2.2.2.1 (by decide),
    ((id_invariant [samplePost, samplePost]).2.2.2.2.2 (by decide)).1⟩

/-- C7 as stated fails: in the store whose counter is `maxInt` a Create does not set
`nextID` to the old `nextID + 1`; the increment wraps to `minInt`. -/
theorem create_counter_counterexample :
    (todosHandler { todos := [], nextID := maxInt } samplePost.2).1.nextID ≠ maxInt + 1 ∧
      (todosHandler { todos := [], nextID := maxInt } samplePost.2).1.nextID = minInt := by
  decide

/-- C7 (amended): for every store and every decodable payload, whatever id it carries,
`POST /todos` answers 201 with the record made of the old `nextID` and the payload's title
and completed flag, stores that record under the old `nextID` and touches no other key, and
gives the same result for two payloads that differ only in their id; it sets `nextID` to
the old `nextID + 1` when the old value is below `maxInt`, and to `minInt` when it is
`maxInt`. -/
theorem create_assigns_nextID (s : Store) (r : Request) (payload : Todo)
    (hm : r.Method = "POST") (hb : r.Body = Except.ok payload) :
    (todosHandler s r).2 =
        { status := 201,
          body := Body.todo
            { ID := s.nextID, Title := payload.Title, Completed := payload.Completed } } ∧
      mapGet (todosHandler s r).1.todos s.nextID =
        some { ID := s.nextID, Title := payload.Title, Completed := payload.Completed } ∧
      (∀ k : Int, k ≠ s.nextID → mapGet (todosHandler s r).1.todos k = mapGet s.todos k) ∧
      (minInt ≤ s.nextID → s.nextID < maxInt → (todosHandler s r).1.nextID = s.nextID + 1) ∧
      (s.nextID = maxInt → (todosHandler s r).1.nextID = minInt) ∧
      (∀ (r2 : Request) (payload2 : Todo), r2.Method = "POST" → r2.Body = Except.ok payload2 →
        payload2.Title = payload.Title → payload2.Completed = payload.Completed →
        todosHandler s r2 = todosHandler s r) := by
  rw [todosHandler_post s r payload hm hb]
  refine ⟨rfl, mapGet_mapSet_self _ _ _, fun k hk => mapGet_mapSet_ne _ _ _ _ hk, ?_, ?_, ?_⟩
  · intro h1 h2
    exact wrapInt_of_inRange _ (by unfold minInt at *; omega) (by omega)
  · intro h
    simp only [h]
    decide
  · intro r2 payload2 hm2 hb2 ht hc
    rw [todosHandler_post s r2 payload2 hm2 hb2, ht, hc]

theorem create_assigns_nextID_witness :
    (todosHandler { todos := [(3, { ID := 3, Title := "x", Completed := true })], nextID := 3 }
        { Method := "POST", Path := "/todos",
          Body := Except.ok { ID := 3, Title := "y", Completed := false } }).1.nextID = 3 + 1 :=
  (create_assigns_nextID
    { todos := [(3, { ID := 3, Title := "x", Completed := true })], nextID := 3 }
    { Method := "POST", Path := "/todos",
      Body := Except.ok { ID := 3, Title := "y", Completed := false } }
    { ID := 3, Title := "y", Completed := false } rfl rfl).2.2.2.1 (by decide) (by decide)

end ApiRest

namespace ApiGql

/-! ## The loops of the GraphQL resolvers -/

theorem updateLoop_found (id : Int) (c : Bool) (store : List Todo)
    (h : ∃ t ∈ store, t.ID = id) :
    ∃ (pre : List Todo) (t : Todo) (post : List Todo),
      store = pre ++ t :: post ∧ (∀ x ∈ pre, x.ID ≠ id) ∧ t.ID = id ∧
      updateLoop id c store =
        (pre ++ { t with Completed := c } :: post, { t with Completed := c }) := by
  induction store with
  | nil => simp at h
  | cons a rest ih =>
    by_cases ha : a.ID = id
    · exact ⟨[], a, rest, rfl, by simp, ha, by simp [updateLoop, ha]⟩
    · have h' : ∃ t ∈ rest, t.ID = id := by
        obtain ⟨t, ht, hid⟩ := h
        rcases List.mem_cons.1 ht with rfl | ht
        · exact absurd hid ha
        · exact ⟨t, ht, hid⟩
      obtain ⟨pre, t, post, hs, hpre, hid, hu⟩ := ih h'
      refine ⟨a :: pre, t, post, by simp [hs], ?_, hid, by simp [updateLoop, ha, hu]⟩
      intro x hx
      rcases List.mem_cons.1 hx with rfl | hx
      · exact ha
      · exact hpre x hx

theorem updateLoop_absent (id : Int) (c : Bool) (store : List Todo)
    (h : ∀ t ∈ store, t.ID ≠ id) : updateLoop id c store = (store, zeroTodo) := by
  induction store with
  | nil => rfl
  | cons a rest ih =>
    have ha : ¬ a.ID = id := h a (List.mem_cons_self _ _)
    have hr := ih (fun t ht => h t (List.mem_cons_of_mem _ ht))
    simp [updateLoop, ha, hr]

theorem findTodo_found (id : Int) (pre : List Todo) (t : Todo) (post : List Todo)
    (hpre : ∀ x ∈ pre, x.ID ≠ id) (hid : t.ID = id) :
    findTodo id (pre ++ t :: post) = some t := by
  induction pre with
  | nil => simp [findTodo, hid]
  | cons a pre ih =>
    have ha : ¬ a.ID = id := hpre a (List.mem_cons_self _ _)
    simp only [List.cons_append, findTodo, ha, if_false]
    exact ih (fun x hx => hpre x (List.mem_cons_of_mem _ hx))

theorem findTodo_absent (id : Int) (store : List Todo) (h : ∀ t ∈ store, t.ID ≠ id) :
    findTodo id store = none := by
  induction store with
  | nil => rfl
  | cons a rest ih =>
    have ha : ¬ a.ID = id := h a (List.mem_cons_self _ _)
    simp only [findTodo, ha, if_false]
    exact ih (fun t ht => h t (List.mem_cons_of_mem _ ht))

/-! ## Claims on the GraphQL service -/

/-- C8: for every todo list, every id occurring in it and every boolean `c`, `updateTodo`
returns without error the first record with that id with its completed flag set to `c`
(same id and title) and writes that record in its place: the records before and after it,
the length, the order, and every id and title are unchanged, and a `todos` query run
afterwards returns the list with that change. On the seeded data `updateTodo(id: 3,
completed: false)` returns `{3, "Buy milk", false}` and `todos` then shows record 3 with
completed false. -/
theorem updateTodo_present :
    (∀ (store : List Todo) (p q : ResolveParams) (id : Int) (c : Bool),
      p.Args "id" = some (ArgValue.int id) → p.Args "completed" = some (ArgValue.bool c) →
      (∃ t ∈ store, t.ID = id) →
      ∃ (pre : List Todo) (t : Todo) (post : List Todo),
        store = pre ++ t :: post ∧ (∀ x ∈ pre, x.ID ≠ id) ∧ t.ID = id ∧
        updateTodoResolve store p =
          (pre ++ { ID := t.ID, Title := t.Title, Completed := c } :: post,
            { value := Value.todo { ID := t.ID, Title := t.Title, Completed := c },
              err := none }) ∧
        (updateTodoResolve store p).1.length = store.length ∧
        (updateTodoResolve store p).1.map Todo.ID = store.map Todo.ID ∧
        (updateTodoResolve store p).1.map Todo.Title = store.map Todo.Title ∧
        todosResolve (updateTodoResolve store p).1 q =
          (pre ++ { ID := t.ID, Title := t.Title, Completed := c } :: post,
            { value := Value.todoList
                (pre ++ { ID := t.ID, Title := t.Title, Completed := c } :: post),
              err := none })) ∧
    updateTodoResolve todos (mkArgs 3 (some false)) =
      ([ { ID := 1, Title := "Learn Go", Completed := false },
         { ID := 2, Title := "Build a GraphQL Server", Completed := false },
         { ID := 3, Title := "Buy milk", Completed := false } ],
        { value := Value.todo { ID := 3, Title := "Buy milk", Completed := false },
          err := none }) ∧
    (todosResolve (updateTodoResolve todos (mkArgs 3 (some false))).1 (mkArgs 0 none)).2 =
      { value := Value.todoList
          [ { ID := 1, Title := "Learn Go", Completed := false },
            { ID := 2, Title := "Build a GraphQL Server", Completed := false },
            { ID := 3, Title := "Buy milk", Completed := false } ],
        err := none } := by
  refine ⟨?_, by decide, by decide⟩
  intro store p q id c hid hc hmem
  obtain ⟨pre, t, post, hs, hpre, ht, hu⟩ := updateLoop_found id c store hmem
  have hr : updateTodoResolve store p =
      (pre ++ { ID := t.ID, Title := t.Title, Completed := c } :: post,
        { value := Value.todo { ID := t.ID, Title := t.Title, Completed := c },
          err := none }) := by
    simp [updateTodoResolve, hid, hc, asInt, asBool, hu]
  refine ⟨pre, t, post, hs, hpre, ht, hr, ?_, ?_, ?_, ?_⟩
  · rw [hr, hs]; simp
  · rw [hr, hs]; simp
  · rw [hr, hs]; simp
  · rw [hr]; rfl

theorem updateTodo_present_witness :
    ∃ (pre : List Todo) (t : Todo) (post : List Todo),
      todos = pre ++ t :: post ∧ (∀ x ∈ pre, x.ID ≠ 2) ∧ t.ID = 2 ∧
      updateTodoResolve todos (mkArgs 2 (some true)) =
        (pre ++ { ID := t.ID, Title := t.Title, Completed := true } :: post,
          { value := Value.todo { ID := t.ID, Title := t.Title, Completed := true },
            err := none }) ∧
      (updateTodoResolve todos (mkArgs 2 (some true))).1.length = todos.length ∧
      (updateTodoResolve todos (mkArgs 2 (some true))).1.map Todo.ID = todos.map Todo.ID ∧
      (updateTodoResolve todos (mkArgs 2 (some true))).1.map Todo.Title =
        todos.map Todo.Title ∧
      todosResolve (updateTodoResolve todos (mkArgs 2 (some true))).1 (mkArgs 0 none) =
        (pre ++ { ID := t.ID, Title := t.Title, Completed := true } :: post,
          { value := Value.todoList
              (pre ++ { ID := t.ID, Title := t.Title, Completed := true } :: post),
            err := none }) :=
  updateTodo_present.1 todos (mkArgs 2 (some true)) (mkArgs 0 none) 2 true rfl rfl
    ⟨{ ID := 2, Title := "Build a GraphQL Server", Completed := false }, by decide, rfl⟩

/-- C9: for every todo list, every id that does not occur in it and every boolean `c`,
`updateTodo` returns the zero-valued record (id 0, empty title, completed false) with no
error and leaves the list unchanged. -/
theorem updateTodo_absent (store : List Todo) (p : ResolveParams) (id : Int) (c : Bool)
    (hid : p.Args "id" = some (ArgValue.int id))
    (hc : p.Args "completed" = some (ArgValue.bool c))
    (habs : ∀ t ∈ store, t.ID ≠ id) :
    updateTodoResolve store p =
      (store, { value := Value.todo { ID := 0, Title := "", Completed := false },
                err := none }) := by
  simp [updateTodoResolve, hid, hc, asInt, asBool, updateLoop_absent id c store habs, zeroTodo]

theorem updateTodo_absent_witness :
    updateTodoResolve todos (mkArgs 999 (some true)) =
      (todos, { value := Value.todo { ID := 0, Title := "", Completed := false },
                err := none }) :=
  updateTodo_absent todos (mkArgs 999 (some true)) 999 true rfl rfl (by decide)

/-- C10: for every todo list and every integer id, the `todo` resolver returns the first
record of the list whose id is the argument when there is one and null when there is none,
in both cases with no error and without modifying the list. On the seeded data `todo(id:
2)` returns `{2, "Build a GraphQL Server", false}` and `todo(id: 999)` returns null with
no error. -/
theorem todo_lookup :
    (∀ (store : List Todo) (p : ResolveParams) (id : Int),
      p.Args "id" = some (ArgValue.int id) →
      (todoResolve store p).1 = store ∧ (todoResolve store p).2.err = none ∧
      (∀ (pre : List Todo) (t : Todo) (post : List Todo),
        store = pre ++ t :: post → (∀ x ∈ pre, x.ID ≠ id) → t.ID = id →
        (todoResolve store p).2.value = Value.todo t) ∧
      ((∀ t ∈ store, t.ID ≠ id) → (todoResolve store p).2.value = Value.null)) ∧
    todoResolve todos (mkArgs 2 none) =
      (todos, { value := Value.todo { ID := 2, Title := "Build a GraphQL Server",
                                      Completed := false },
                err := none }) ∧
    todoResolve todos (mkArgs 999 none) = (todos, { value := Value.null, err := none }) := by
  refine ⟨?_, by decide, by decide⟩
  intro store p id hid
  have hstore : (todoResolve store p).1 = store := by
    simp only [todoResolve, hid, asInt]
    cases findTodo id store <;> rfl
  have herr : (todoResolve store p).2.err = none := by
    simp only [todoResolve, hid, asInt]
    cases findTodo id store <;> rfl
  refine ⟨hstore, herr, ?_, ?_⟩
  · intro pre t post hs hpre ht
    have hf := findTodo_found id pre t post hpre ht
    rw [← hs] at hf
    simp [todoResolve, hid, asInt, hf]
  · intro habs
    simp [todoResolve, hid, asInt, findTodo_absent id store habs]

theorem todo_lookup_witness :
    (todoResolve todos (mkArgs 3 none)).2.value =
        Value.todo { ID := 3, Title := "Buy milk", Completed := true } ∧
      (todoResolve todos (mkArgs 7 none)).2.value = Value.null :=
  ⟨(todo_lookup.1 todos (mkArgs 3 none) 3 rfl).2.2.1
      [ { ID := 1, Title := "Learn Go", Completed := false },
        { ID := 2, Title := "Build a GraphQL Server", Completed := false } ]
      { ID := 3, Title := "Buy milk", Completed := true } [] rfl (by decide) rfl,
    (todo_lookup.1 todos (mkArgs 7 none) 7 rfl).2.2.2 (by decide)⟩

end ApiGql
